import Mathlib

/-!
# secrets-broker: the VaultSecret reconciler

A shallow embedding of `controllers/vaultsecret_controller.go` and of the
types of `api/v1alpha1/vaultsecret_types.go`.

* Go strings are `String`; `[]byte(str)` is the list of UTF-8 bytes of `str`.
* A Go `map[string]T` is an association list read and written through
  `GoMap.get?` / `GoMap.set`, so that at most one binding per key is visible.
* The cluster API is an explicit state (`Cluster`): one store per kind, keyed
  by namespace and name.  Each client call of one `Reconcile` invocation can be
  made to fail through `Faults`; a call that is not made to fail behaves as the
  API server does on the store (`Get` of an absent object is `NotFound`,
  `Create` of a present one is `AlreadyExists`, `Update` of an absent one is
  `NotFound`).
* `time.Now()` is the parameter `now`.
* Log lines are not part of the model; recorded events are.
-/

set_option autoImplicit false

namespace SecretsBroker

/-! ## Go maps -/

/-- A Go `map[string]β`, as an association list. -/
abbrev GoMap (β : Type) := List (String × β)

namespace GoMap

variable {β : Type}

/-- The keys bound in the map. -/
def keys (m : GoMap β) : List String := m.map Prod.fst

/-- Map read: `v, ok := m[k]`. -/
def get? : GoMap β → String → Option β
  | [], _ => none
  | (k', v) :: m, k => if k' = k then some v else get? m k

/-- Map write: `m[k] = v`. -/
def set : GoMap β → String → β → GoMap β
  | [], k, v => [(k, v)]
  | (k', v') :: m, k, v => if k' = k then (k, v) :: m else (k', v') :: set m k v

end GoMap

/-! ## api/v1alpha1 -/

/-- The Go type `SyncState`, a string. -/
abbrev SyncState := String

def InSyncState : SyncState := "InSync"
def SyncingState : SyncState := "Synchronizing"
def ErrorState : SyncState := "Error"
def PendingState : SyncState := "Pending"
def StaleState : SyncState := "Stale"

/-- The fields of `metav1.Condition` that the controller sets. -/
structure Condition where
  Type_ : String
  Status : String
  Reason : String
  Message : String
  LastTransitionTime : Nat
  deriving DecidableEq, Repr

/-- `SecretSpec` defines the structure of the managed Secret. -/
structure SecretSpec where
  Type_ : String
  FieldRefs : GoMap String
  deriving DecidableEq, Repr

/-- `VaultSecretSpec` defines the desired state of VaultSecret. -/
structure VaultSecretSpec where
  VaultURL : String
  SecretPath : String
  Spec : SecretSpec
  deriving DecidableEq, Repr

/-- `VaultSecretStatus` defines the observed state of VaultSecret. -/
structure VaultSecretStatus where
  Phase : SyncState
  Conditions : List Condition
  deriving DecidableEq, Repr

/-- `VaultSecret`, with the object metadata the controller reads. -/
structure VaultSecret where
  Namespace : String
  Name : String
  UID : String
  Spec : VaultSecretSpec
  Status : VaultSecretStatus
  deriving DecidableEq, Repr

/-! ## Kubernetes objects and client -/

/-- `types.NamespacedName`. -/
structure NamespacedName where
  Namespace : String
  Name : String
  deriving DecidableEq, Repr

/-- The controller owner reference written by `SetControllerReference`. -/
structure OwnerReference where
  Kind : String
  Name : String
  UID : String
  Controller : Bool
  deriving DecidableEq, Repr

/-- `[]byte`. -/
abbrev Bytes := List UInt8

/-- The conversion `[]byte(str)`. -/
def bytesOf (str : String) : Bytes := str.toUTF8.data.toList

/-- `v1.Secret`, with the fields the controller writes. -/
structure Secret where
  Namespace : String
  Name : String
  Type_ : String
  Data : GoMap Bytes
  OwnerReferences : List OwnerReference
  deriving DecidableEq, Repr

/-- An error of a cluster API call. -/
inductive ApiError where
  | notFound
  | alreadyExists
  | conflict
  | other (msg : String)
  deriving DecidableEq, Repr

/-- A Go `error` value as returned by `Reconcile`. -/
inductive GoError where
  | api (e : ApiError)
  | errorf (msg : String)
  deriving DecidableEq, Repr

/-- `apierrors.IsNotFound`. -/
def IsNotFound (err : ApiError) : Bool :=
  match err with
  | .notFound => true
  | _ => false

/-- `client.IgnoreNotFound`: nil for a not-found error, the error otherwise. -/
def IgnoreNotFound (err : ApiError) : Option GoError :=
  if IsNotFound err then none else some (.api err)

/-- The objects of the cluster, per kind, by namespace and name. -/
structure Cluster where
  vaultSecrets : NamespacedName → Option VaultSecret
  secrets : NamespacedName → Option Secret

/-- Every object is stored under its own namespace and name. -/
def Cluster.WellFormed (c : Cluster) : Prop :=
  (∀ key vs, c.vaultSecrets key = some vs → vs.Namespace = key.Namespace ∧ vs.Name = key.Name) ∧
  (∀ key s, c.secrets key = some s → s.Namespace = key.Namespace ∧ s.Name = key.Name)

/-- The errors injected into the client calls of one `Reconcile` invocation;
`none` lets the call go through to the store. -/
structure Faults where
  getVaultSecret : Option ApiError
  updateVaultSecret : Option ApiError
  getSecret : Option ApiError
  createSecret : Option ApiError
  deriving DecidableEq, Repr

/-- No injected error. -/
def Faults.none : Faults := ⟨Option.none, Option.none, Option.none, Option.none⟩

/-- A client call issued by `Reconcile`, with whether it succeeded. -/
inductive Call where
  | getVaultSecret (key : NamespacedName) (ok : Bool)
  | updateVaultSecret (obj : VaultSecret) (ok : Bool)
  | getSecret (key : NamespacedName) (ok : Bool)
  | createSecret (obj : Secret) (ok : Bool)
  deriving DecidableEq, Repr

/-- A call that writes to the cluster: a create or an update. -/
def Call.isWrite : Call → Bool
  | .updateVaultSecret _ _ => true
  | .createSecret _ _ => true
  | _ => false

/-- A successful create of the secret with the given key. -/
def Call.isCreated (key : NamespacedName) : Call → Bool
  | .createSecret obj ok => ok && decide (obj.Namespace = key.Namespace ∧ obj.Name = key.Name)
  | _ => false

/-- An event sent to the recorder. -/
structure Event where
  object : NamespacedName
  eventtype : String
  reason : String
  message : String
  deriving DecidableEq, Repr

def VaultSecret.key (vs : VaultSecret) : NamespacedName := ⟨vs.Namespace, vs.Name⟩

def Secret.key (s : Secret) : NamespacedName := ⟨s.Namespace, s.Name⟩

/-- `r.Get(ctx, key, &vs)`. -/
def clientGetVaultSecret (c : Cluster) (f : Faults) (key : NamespacedName) :
    Except ApiError VaultSecret :=
  match f.getVaultSecret with
  | some err => .error err
  | none =>
    match c.vaultSecrets key with
    | some vs => .ok vs
    | none => .error .notFound

/-- `r.Update(ctx, vs)`. -/
def clientUpdateVaultSecret (c : Cluster) (f : Faults) (vs : VaultSecret) :
    Except ApiError Cluster :=
  match f.updateVaultSecret with
  | some err => .error err
  | none =>
    match c.vaultSecrets vs.key with
    | some _ => .ok { c with vaultSecrets := Function.update c.vaultSecrets vs.key (some vs) }
    | none => .error .notFound

/-- `r.Client.Get(ctx, key, &s)`. -/
def clientGetSecret (c : Cluster) (f : Faults) (key : NamespacedName) :
    Except ApiError Secret :=
  match f.getSecret with
  | some err => .error err
  | none =>
    match c.secrets key with
    | some s => .ok s
    | none => .error .notFound

/-- `r.Client.Create(ctx, &s)`. -/
def clientCreateSecret (c : Cluster) (f : Faults) (s : Secret) :
    Except ApiError Cluster :=
  match f.createSecret with
  | some err => .error err
  | none =>
    match c.secrets s.key with
    | some _ => .error .alreadyExists
    | none => .ok { c with secrets := Function.update c.secrets s.key (some s) }

/-- `apimeta.FindStatusCondition`: the first condition of the given type. -/
def FindStatusCondition (conditions : List Condition) (conditionType : String) :
    Option Condition :=
  conditions.find? (fun c => c.Type_ = conditionType)

/-- `apimeta.SetStatusCondition` (k8s.io/apimachinery): append the condition
when none of its type is present; otherwise overwrite status (moving the
transition time only when the status changes), reason and message in place. -/
def SetStatusCondition (conditions : List Condition) (newCondition : Condition) (now : Nat) :
    List Condition :=
  match FindStatusCondition conditions newCondition.Type_ with
  | none =>
    let newCondition :=
      if newCondition.LastTransitionTime = 0 then
        { newCondition with LastTransitionTime := now }
      else newCondition
    conditions ++ [newCondition]
  | some _ =>
    conditions.map fun existing =>
      if existing.Type_ = newCondition.Type_ then
        let existing :=
          if existing.Status ≠ newCondition.Status then
            { existing with
              Status := newCondition.Status
              LastTransitionTime :=
                if newCondition.LastTransitionTime ≠ 0 then newCondition.LastTransitionTime
                else now }
          else existing
        { existing with Reason := newCondition.Reason, Message := newCondition.Message }
      else existing

/-! ## controllers -/

/-- What one `Reconcile` invocation returns and does. -/
structure Outcome where
  err : Option GoError
  cluster : Cluster
  calls : List Call
  events : List Event

/-- The loop of `Reconcile` over `vs.Spec.Spec.FieldRefs`, on the map `data`:
`s.Data[field] = []byte(fmt.Sprintf("handled-%s", source))`. -/
def buildDataFrom (data : GoMap Bytes) (fieldRefs : GoMap String) : GoMap Bytes :=
  fieldRefs.foldl (fun data p => data.set p.1 (bytesOf ("handled-" ++ p.2))) data

/-- The data of the secret: `s.Data = make(map[string][]byte)`, then the loop. -/
def buildData (fieldRefs : GoMap String) : GoMap Bytes :=
  buildDataFrom [] fieldRefs

/-- The secret `Reconcile` builds for a pending VaultSecret. -/
def buildSecret (req : NamespacedName) (vs : VaultSecret) : Secret :=
  { Namespace := req.Namespace
    Name := req.Name
    Type_ := vs.Spec.Spec.Type_
    Data := buildData vs.Spec.Spec.FieldRefs
    OwnerReferences := [⟨"VaultSecret", vs.Name, vs.UID, true⟩] }

/-- The status `Reconcile` writes after creating the secret. -/
def syncedStatus (status : VaultSecretStatus) (now : Nat) : VaultSecretStatus :=
  { Phase := "InSync"
    Conditions := SetStatusCondition status.Conditions
      { Type_ := "StaleSecret"
        Status := "False"
        Reason := "SecretSynchronized"
        Message := "The managed Secret is up to date with the Vault source"
        LastTransitionTime := now } now }

/-- `VaultSecretReconciler.Reconcile`. -/
def Reconcile (c : Cluster) (f : Faults) (now : Nat) (req : NamespacedName) : Outcome :=
  match clientGetVaultSecret c f req with
  | .error err =>
    { err := IgnoreNotFound err, cluster := c, calls := [.getVaultSecret req false], events := [] }
  | .ok vs =>
    let calls := [Call.getVaultSecret req true]
    if vs.Status.Phase = "" then
      let myVs := { vs with Status := { Phase := "Pending", Conditions := [] } }
      match clientUpdateVaultSecret c f myVs with
      | .error err =>
        { err := some (.api err), cluster := c
          calls := calls ++ [.updateVaultSecret myVs false], events := [] }
      | .ok c' =>
        { err := none, cluster := c'
          calls := calls ++ [.updateVaultSecret myVs true], events := [] }
    else if vs.Status.Phase = "InSync" then
      { err := none, cluster := c, calls := calls, events := [] }
    else if vs.Status.Phase = "Pending" then
      let key : NamespacedName := ⟨req.Namespace, req.Name⟩
      match clientGetSecret c f key with
      | .error err =>
        let calls := calls ++ [.getSecret key false]
        if IsNotFound err then
          let s := buildSecret req vs
          match clientCreateSecret c f s with
          | .error err' =>
            { err := some (.api err'), cluster := c
              calls := calls ++ [.createSecret s false], events := [] }
          | .ok c' =>
            let calls := calls ++ [.createSecret s true]
            let myVs := { vs with Status := syncedStatus vs.Status now }
            let event : Event :=
              ⟨myVs.key, "Normal", "SecretCreated", "The managed Secret has been created"⟩
            -- the error of this update is assigned to the inner `err`, which
            -- is not the one returned below
            match clientUpdateVaultSecret c' f myVs with
            | .error _ =>
              { err := IgnoreNotFound err, cluster := c'
                calls := calls ++ [.updateVaultSecret myVs false], events := [event] }
            | .ok c'' =>
              { err := IgnoreNotFound err, cluster := c''
                calls := calls ++ [.updateVaultSecret myVs true], events := [event] }
        else
          { err := IgnoreNotFound err, cluster := c, calls := calls, events := [] }
      | .ok _ =>
        { err := none, cluster := c, calls := calls ++ [.getSecret key true], events := [] }
    else
      { err := some (.errorf "unknown phase"), cluster := c, calls := calls, events := [] }

/-! ## Sequences of invocations -/

/-- One step of the life of a cluster: a `Reconcile` invocation, or a change made
by another actor. -/
inductive Step where
  | reconcile (f : Faults) (now : Nat) (req : NamespacedName)
  | external (change : Cluster → Cluster)

/-- The step does not delete the secret `key`: a change by another actor keeps a
present secret present. -/
def Step.keepsSecret (key : NamespacedName) : Step → Prop
  | .reconcile _ _ _ => True
  | .external change => ∀ c : Cluster, (c.secrets key).isSome → ((change c).secrets key).isSome

/-- Run the steps in order; the result is the final cluster and the client calls
issued by the `Reconcile` invocations, in order. -/
def run : Cluster → List Step → Cluster × List Call
  | c, [] => (c, [])
  | c, .reconcile f now req :: steps =>
    let out := Reconcile c f now req
    let rest := run out.cluster steps
    (rest.1, out.calls ++ rest.2)
  | c, .external change :: steps => run (change c) steps

/-- How many times the secret `key` was created in a list of calls. -/
def createdCount (key : NamespacedName) (calls : List Call) : Nat :=
  (calls.filter (Call.isCreated key)).length

/-! ## The specification's materializer, and the scenario of its section 8 -/

/-- The SecretMaterializer in the words of the specification (section 4.2): the
data maps each destination field name to the fetched bytes of its source field
name, and there is no result when a source field name is absent from `fetched`. -/
def specMaterialize : GoMap String → GoMap Bytes → Option (GoMap Bytes)
  | [], _ => some []
  | (destination, source) :: rest, fetched =>
    match fetched.get? source, specMaterialize rest fetched with
    | some value, some data => some ((destination, value) :: data)
    | _, _ => none

def scenarioReq : NamespacedName := ⟨"default", "db-creds"⟩

def scenarioFieldRefs : GoMap String := [("username", "svc-user"), ("password", "svc-pass")]

def scenarioFetched : GoMap Bytes :=
  [("svc-user", bytesOf "alice"), ("svc-pass", bytesOf "s3cr3t")]

/-- The source object of the scenario, in the given phase and without conditions. -/
def scenarioVaultSecret (phase : SyncState) : VaultSecret :=
  { Namespace := "default"
    Name := "db-creds"
    UID := "uid-1"
    Spec :=
      { VaultURL := "https://vault.example"
        SecretPath := "secret/db"
        Spec := { Type_ := "Opaque", FieldRefs := scenarioFieldRefs } }
    Status := { Phase := phase, Conditions := [] } }

/-- A cluster holding the source object of the scenario and, possibly, a secret
of the same namespace and name. -/
def scenarioCluster (phase : SyncState) (secret : Option Secret) : Cluster :=
  { vaultSecrets := fun key => if key = scenarioReq then some (scenarioVaultSecret phase) else none
    secrets := fun key => if key = scenarioReq then secret else none }

/-- The secret `Reconcile` creates in the scenario. -/
def scenarioSecret : Secret := buildSecret scenarioReq (scenarioVaultSecret "Pending")

/-- The secret of the scenario after another actor overwrote `username`. -/
def scenarioDriftedSecret : Secret :=
  { scenarioSecret with Data := scenarioSecret.Data.set "username" (bytesOf "mallory") }

/-- Only the status update is made to fail, with a conflict. -/
def updateConflict : Faults := { Faults.none with updateVaultSecret := some .conflict }

/-- Another actor overwrites `username` in the secret of the scenario, if the
secret is there. -/
def overwriteUsername (c : Cluster) : Cluster :=
  { c with
    secrets := fun key =>
      (c.secrets key).map fun s =>
        if key = scenarioReq then { s with Data := s.Data.set "username" (bytesOf "mallory") }
        else s }

/-- Another actor sets the phase of the scenario object back to "Pending". -/
def resetPhase (c : Cluster) : Cluster :=
  { c with
    vaultSecrets := fun key =>
      (c.vaultSecrets key).map fun vs =>
        if key = scenarioReq then { vs with Status := { vs.Status with Phase := "Pending" } }
        else vs }

/-- A life of the scenario object: first sight, creation of the secret, a
no-op in "InSync", then the secret is overwritten and the phase reset by other
actors, and two more invocations follow. -/
def scenarioSteps : List Step :=
  [.reconcile Faults.none 1 scenarioReq,
   .reconcile Faults.none 2 scenarioReq,
   .reconcile Faults.none 3 scenarioReq,
   .external overwriteUsername,
   .external resetPhase,
   .reconcile Faults.none 4 scenarioReq,
   .reconcile Faults.none 5 scenarioReq]

/-! ## Reconcile: the phases that write nothing or only the status -/

/-- C2: a source object observed with an empty phase is written back with phase
"Pending" by one Reconcile whose update succeeds; the secrets of the cluster are
untouched, no create is issued, and no error is returned. -/
theorem reconcile_empty_phase_sets_pending (c : Cluster) (f : Faults) (now : Nat)
    (req : NamespacedName) (vs : VaultSecret)
    (hwf : c.WellFormed)
    (hget : f.getVaultSecret = none) (hvs : c.vaultSecrets req = some vs)
    (hphase : vs.Status.Phase = "")
    (hupd : f.updateVaultSecret = none) :
    (Reconcile c f now req).err = none ∧
    (Reconcile c f now req).cluster.vaultSecrets req
      = some { vs with Status := { Phase := "Pending", Conditions := [] } } ∧
    (Reconcile c f now req).cluster.secrets = c.secrets ∧
    (∀ s ok, Call.createSecret s ok ∉ (Reconcile c f now req).calls) ∧
    ((Reconcile c f now req).calls.filter Call.isWrite).length = 1 := by
  have hkey : (⟨vs.Namespace, vs.Name⟩ : NamespacedName) = req := by
    have h := hwf.1 req vs hvs
    cases req
    simp_all
  simp [Reconcile, clientGetVaultSecret, clientUpdateVaultSecret, VaultSecret.key, hget, hvs,
    hphase, hupd, hkey, Call.isWrite]

/-- C5: for a source object whose phase is none of "", "Pending", "InSync",
"Stale", "Error", Reconcile returns an error (the "unknown phase" error), leaves
the cluster as it was and issues no create and no update. -/
theorem reconcile_unknown_phase_fails (c : Cluster) (f : Faults) (now : Nat)
    (req : NamespacedName) (vs : VaultSecret)
    (hget : f.getVaultSecret = none) (hvs : c.vaultSecrets req = some vs)
    (hphase : vs.Status.Phase ∉ ["", "Pending", "InSync", "Stale", "Error"]) :
    (Reconcile c f now req).err = some (.errorf "unknown phase") ∧
    (Reconcile c f now req).cluster = c ∧
    (Reconcile c f now req).calls.filter Call.isWrite = [] := by
  simp only [List.mem_cons, List.mem_singleton, List.not_mem_nil, or_false, not_or] at hphase
  obtain ⟨h1, h2, h3, -, -⟩ := hphase
  simp [Reconcile, clientGetVaultSecret, hget, hvs, h1, h2, h3, Call.isWrite]

/-- C6: for a source object in phase "InSync", Reconcile returns no error, leaves
the cluster (status and secrets) as it was and issues no create and no update;
so does a second Reconcile run right after the first. -/
theorem reconcile_insync_no_writes (c : Cluster) (f₁ f₂ : Faults) (now₁ now₂ : Nat)
    (req : NamespacedName) (vs : VaultSecret)
    (hget₁ : f₁.getVaultSecret = none) (hget₂ : f₂.getVaultSecret = none)
    (hvs : c.vaultSecrets req = some vs)
    (hphase : vs.Status.Phase = "InSync") :
    (Reconcile c f₁ now₁ req).err = none ∧
    (Reconcile c f₁ now₁ req).cluster = c ∧
    (Reconcile c f₁ now₁ req).calls.filter Call.isWrite = [] ∧
    (Reconcile (Reconcile c f₁ now₁ req).cluster f₂ now₂ req).err = none ∧
    (Reconcile (Reconcile c f₁ now₁ req).cluster f₂ now₂ req).cluster = c ∧
    (Reconcile (Reconcile c f₁ now₁ req).cluster f₂ now₂ req).calls.filter Call.isWrite = [] := by
  have h : ∀ (f : Faults) (now : Nat), f.getVaultSecret = none →
      (Reconcile c f now req).err = none ∧ (Reconcile c f now req).cluster = c ∧
      (Reconcile c f now req).calls.filter Call.isWrite = [] := by
    intro f now hget
    simp [Reconcile, clientGetVaultSecret, hget, hvs, hphase, Call.isWrite]
  obtain ⟨e₁, c₁, w₁⟩ := h f₁ now₁ hget₁
  rw [c₁]
  exact ⟨e₁, rfl, w₁, h f₂ now₂ hget₂⟩

/-! ## The scenario cluster -/

theorem scenarioCluster_wellFormed (phase : SyncState) (secret : Option Secret)
    (h : ∀ s, secret = some s → s.Namespace = "default" ∧ s.Name = "db-creds") :
    (scenarioCluster phase secret).WellFormed := by
  constructor
  · intro key vs hkey
    simp only [scenarioCluster] at hkey
    split at hkey
    · next heq =>
      cases hkey
      subst heq
      exact ⟨rfl, rfl⟩
    · cases hkey
  · intro key s hkey
    simp only [scenarioCluster] at hkey
    split at hkey
    · next heq =>
      subst heq
      exact h s hkey
    · cases hkey

/-- C2 at the scenario object in the empty phase. -/
theorem reconcile_empty_phase_sets_pending_witness :
    (scenarioVaultSecret "").Status.Phase = "" ∧
    (Reconcile (scenarioCluster "" none) Faults.none 7 scenarioReq).err = none ∧
    (Reconcile (scenarioCluster "" none) Faults.none 7 scenarioReq).cluster.vaultSecrets
      scenarioReq = some (scenarioVaultSecret "Pending") ∧
    (Reconcile (scenarioCluster "" none) Faults.none 7 scenarioReq).cluster.secrets
      scenarioReq = none :=
  have h := reconcile_empty_phase_sets_pending (scenarioCluster "" none) Faults.none 7
    scenarioReq (scenarioVaultSecret "")
    (scenarioCluster_wellFormed "" none (by simp)) rfl rfl rfl rfl
  ⟨rfl, h.1, h.2.1, by rw [h.2.2.1]; rfl⟩

/-- C5 at the scenario object with the phase "Synchronizing". -/
theorem reconcile_unknown_phase_fails_witness :
    (Reconcile (scenarioCluster "Synchronizing" none) Faults.none 7 scenarioReq).err
      = some (.errorf "unknown phase") ∧
    (Reconcile (scenarioCluster "Synchronizing" none) Faults.none 7 scenarioReq).cluster
      = scenarioCluster "Synchronizing" none ∧
    (Reconcile (scenarioCluster "Synchronizing" none) Faults.none 7 scenarioReq).calls.filter
      Call.isWrite = [] :=
  reconcile_unknown_phase_fails (scenarioCluster "Synchronizing" none) Faults.none 7
    scenarioReq (scenarioVaultSecret "Synchronizing") rfl rfl (by decide)

/-- C6 at the scenario object in phase "InSync" with its secret. -/
theorem reconcile_insync_no_writes_witness :
    (Reconcile (scenarioCluster "InSync" (some scenarioSecret)) Faults.none 7 scenarioReq).err
      = none ∧
    (Reconcile (scenarioCluster "InSync" (some scenarioSecret)) Faults.none 7 scenarioReq).cluster
      = scenarioCluster "InSync" (some scenarioSecret) :=
  have h := reconcile_insync_no_writes (scenarioCluster "InSync" (some scenarioSecret))
    Faults.none Faults.none 7 8 scenarioReq (scenarioVaultSecret "InSync") rfl rfl rfl rfl
  ⟨h.1, h.2.1⟩

/-! ## Drift and the existing secret -/

/-- C7 fails: with the secret's `username` overwritten by another actor and the
source object in phase "InSync", Reconcile leaves the phase "InSync", not
"Stale", and the overwritten bytes in place. -/
theorem reconcile_insync_ignores_drift :
    scenarioDriftedSecret.Data.get? "username" ≠ scenarioSecret.Data.get? "username" ∧
    ∃ vs, (Reconcile (scenarioCluster "InSync" (some scenarioDriftedSecret)) Faults.none 7
        scenarioReq).cluster.vaultSecrets scenarioReq = some vs ∧
      vs.Status.Phase = "InSync" ∧ vs.Status.Phase ≠ "Stale" :=
  ⟨by decide, scenarioVaultSecret "InSync", by decide, by decide, by decide⟩

/-- C7 amended: for a source object in phase "InSync", whatever the data of its
managed secret, Reconcile returns no error and leaves the cluster as it was
(the phase stays "InSync", the secret keeps its data); for a source object in
phase "Stale", Reconcile returns the "unknown phase" error and leaves the cluster
as it was. -/
theorem reconcile_no_drift_handling (c : Cluster) (f : Faults) (now : Nat)
    (req : NamespacedName) (vs : VaultSecret)
    (hget : f.getVaultSecret = none) (hvs : c.vaultSecrets req = some vs) :
    (vs.Status.Phase = "InSync" →
      (Reconcile c f now req).err = none ∧ (Reconcile c f now req).cluster = c ∧
      (Reconcile c f now req).calls.filter Call.isWrite = []) ∧
    (vs.Status.Phase = "Stale" →
      (Reconcile c f now req).err = some (.errorf "unknown phase") ∧
      (Reconcile c f now req).cluster = c ∧
      (Reconcile c f now req).calls.filter Call.isWrite = []) := by
  constructor
  · intro hphase
    simp [Reconcile, clientGetVaultSecret, hget, hvs, hphase, Call.isWrite]
  · intro hphase
    simp [Reconcile, clientGetVaultSecret, hget, hvs, hphase, Call.isWrite]

/-- C7 amended, at the scenario object in phase "InSync" with the drifted secret
and in phase "Stale". -/
theorem reconcile_no_drift_handling_witness :
    (Reconcile (scenarioCluster "InSync" (some scenarioDriftedSecret)) Faults.none 7
      scenarioReq).cluster = scenarioCluster "InSync" (some scenarioDriftedSecret) ∧
    (Reconcile (scenarioCluster "Stale" (some scenarioDriftedSecret)) Faults.none 7
      scenarioReq).err = some (.errorf "unknown phase") :=
  ⟨((reconcile_no_drift_handling (scenarioCluster "InSync" (some scenarioDriftedSecret))
      Faults.none 7 scenarioReq (scenarioVaultSecret "InSync") rfl rfl).1 rfl).2.1,
   ((reconcile_no_drift_handling (scenarioCluster "Stale" (some scenarioDriftedSecret))
      Faults.none 7 scenarioReq (scenarioVaultSecret "Stale") rfl rfl).2 rfl).1⟩

/-- C9 fails: with the source object in phase "Pending" and its secret already
there with exactly the data Reconcile would build, Reconcile leaves the phase
"Pending"; it is neither "InSync" nor "Stale". -/
theorem reconcile_pending_existing_stays_pending :
    ∃ vs, (Reconcile (scenarioCluster "Pending" (some scenarioSecret)) Faults.none 7
        scenarioReq).cluster.vaultSecrets scenarioReq = some vs ∧
      vs.Status.Phase = "Pending" ∧ vs.Status.Phase ≠ "InSync" ∧ vs.Status.Phase ≠ "Stale" :=
  ⟨scenarioVaultSecret "Pending", by decide, by decide, by decide, by decide⟩

/-- C9 amended: for a source object in phase "Pending" whose managed secret is
found by the lookup, Reconcile compares nothing and writes nothing: it returns
no error, leaves the cluster as it was (the phase stays "Pending") and issues no
create and no update. -/
theorem reconcile_pending_existing_no_writes (c : Cluster) (f : Faults) (now : Nat)
    (req : NamespacedName) (vs : VaultSecret) (s : Secret)
    (hget : f.getVaultSecret = none) (hvs : c.vaultSecrets req = some vs)
    (hphase : vs.Status.Phase = "Pending")
    (hgs : f.getSecret = none) (hs : c.secrets req = some s) :
    (Reconcile c f now req).err = none ∧
    (Reconcile c f now req).cluster = c ∧
    (Reconcile c f now req).calls.filter Call.isWrite = [] := by
  simp [Reconcile, clientGetVaultSecret, clientGetSecret, hget, hvs, hphase, hgs, hs,
    Call.isWrite]

/-- C9 amended, at the scenario object in phase "Pending" with a drifted secret. -/
theorem reconcile_pending_existing_no_writes_witness :
    (Reconcile (scenarioCluster "Pending" (some scenarioDriftedSecret)) Faults.none 7
      scenarioReq).err = none ∧
    (Reconcile (scenarioCluster "Pending" (some scenarioDriftedSecret)) Faults.none 7
      scenarioReq).cluster = scenarioCluster "Pending" (some scenarioDriftedSecret) ∧
    (Reconcile (scenarioCluster "Pending" (some scenarioDriftedSecret)) Faults.none 7
      scenarioReq).calls.filter Call.isWrite = [] :=
  reconcile_pending_existing_no_writes (scenarioCluster "Pending" (some scenarioDriftedSecret))
    Faults.none 7 scenarioReq (scenarioVaultSecret "Pending") scenarioDriftedSecret
    rfl rfl rfl rfl rfl

/-! ## The status update after the create -/

/-- C8, the failing input: the source object is "Pending", its secret is absent,
the create succeeds and the status update fails with a conflict.  Reconcile
issues the update, which fails, and returns no error; the persisted status is
still "Pending" with no condition, while the secret has been created. -/
theorem reconcile_drops_status_update_error :
    (Reconcile (scenarioCluster "Pending" none) updateConflict 7 scenarioReq).err = none ∧
    (Reconcile (scenarioCluster "Pending" none) updateConflict 7 scenarioReq).cluster.vaultSecrets
      scenarioReq = some (scenarioVaultSecret "Pending") ∧
    (scenarioVaultSecret "Pending").Status.Conditions = [] ∧
    (Reconcile (scenarioCluster "Pending" none) updateConflict 7 scenarioReq).cluster.secrets
      scenarioReq = some scenarioSecret ∧
    (Reconcile (scenarioCluster "Pending" none) updateConflict 7 scenarioReq).calls.filter
      Call.isWrite =
      [.createSecret scenarioSecret true,
       .updateVaultSecret
         { scenarioVaultSecret "Pending" with
           Status := syncedStatus (scenarioVaultSecret "Pending").Status 7 } false] := by
  refine ⟨by decide, by decide, by decide, by decide, by decide⟩

/-! ## The data of the created secret -/

theorem GoMap.mem_keys_set {β : Type} (m : GoMap β) (k : String) (v : β) (x : String) :
    x ∈ (m.set k v).keys ↔ x = k ∨ x ∈ m.keys := by
  induction m with
  | nil => simp [GoMap.set, GoMap.keys]
  | cons p m ih =>
    obtain ⟨k', v'⟩ := p
    simp only [GoMap.set]
    split
    · next h =>
      subst h
      simp [GoMap.keys]
    · simp only [GoMap.keys, List.map_cons, List.mem_cons] at ih ⊢
      rw [ih]
      tauto

theorem GoMap.nodup_keys_set {β : Type} (m : GoMap β) (k : String) (v : β)
    (h : m.keys.Nodup) : (m.set k v).keys.Nodup := by
  induction m with
  | nil => simp [GoMap.set, GoMap.keys]
  | cons p m ih =>
    obtain ⟨k', v'⟩ := p
    have hk' : k' ∉ GoMap.keys m := (List.nodup_cons.mp h).1
    have hm : (GoMap.keys m).Nodup := (List.nodup_cons.mp h).2
    simp only [GoMap.set]
    split
    · next heq =>
      subst heq
      exact List.nodup_cons.mpr ⟨hk', hm⟩
    · next hne =>
      refine List.nodup_cons.mpr ⟨?_, ih hm⟩
      intro hmem
      rcases (GoMap.mem_keys_set m k v k').mp hmem with heq | hmem'
      · exact hne heq
      · exact hk' hmem'

theorem GoMap.get?_set {β : Type} (m : GoMap β) (k : String) (v : β) (x : String) :
    (m.set k v).get? x = if k = x then some v else m.get? x := by
  induction m with
  | nil => simp [GoMap.set, GoMap.get?]
  | cons p m ih =>
    obtain ⟨k', v'⟩ := p
    simp only [GoMap.set]
    split
    · next h =>
      subst h
      simp only [GoMap.get?]
      split <;> simp_all
    · next h =>
      simp only [GoMap.get?, ih]
      split
      · next h' =>
        subst h'
        simp [Ne.symm h]
      · rfl

theorem mem_keys_buildDataFrom (fieldRefs : GoMap String) (data : GoMap Bytes) (x : String) :
    x ∈ (buildDataFrom data fieldRefs).keys ↔ x ∈ data.keys ∨ x ∈ fieldRefs.keys := by
  induction fieldRefs generalizing data with
  | nil => simp [buildDataFrom, GoMap.keys]
  | cons p rest ih =>
    have h := ih (data.set p.1 (bytesOf ("handled-" ++ p.2)))
    simp only [buildDataFrom, List.foldl_cons] at h ⊢
    rw [h, GoMap.mem_keys_set]
    simp only [GoMap.keys, List.map_cons, List.mem_cons]
    tauto

theorem nodup_keys_buildDataFrom (fieldRefs : GoMap String) (data : GoMap Bytes)
    (h : data.keys.Nodup) : (buildDataFrom data fieldRefs).keys.Nodup := by
  induction fieldRefs generalizing data with
  | nil => simpa [buildDataFrom] using h
  | cons p rest ih =>
    have h' := ih (data.set p.1 (bytesOf ("handled-" ++ p.2))) (GoMap.nodup_keys_set data _ _ h)
    simpa only [buildDataFrom, List.foldl_cons] using h'

theorem get?_buildDataFrom_of_not_mem (fieldRefs : GoMap String) (data : GoMap Bytes)
    (x : String) (h : x ∉ fieldRefs.keys) :
    (buildDataFrom data fieldRefs).get? x = data.get? x := by
  induction fieldRefs generalizing data with
  | nil => simp [buildDataFrom]
  | cons p rest ih =>
    simp only [GoMap.keys, List.map_cons, List.mem_cons, not_or] at h
    have h' := ih (data.set p.1 (bytesOf ("handled-" ++ p.2))) h.2
    simp only [buildDataFrom, List.foldl_cons] at h' ⊢
    rw [h', GoMap.get?_set, if_neg (Ne.symm h.1)]

theorem get?_buildDataFrom_of_mem (fieldRefs : GoMap String) (data : GoMap Bytes)
    (hnodup : fieldRefs.keys.Nodup) (field source : String)
    (hmem : (field, source) ∈ fieldRefs) :
    (buildDataFrom data fieldRefs).get? field = some (bytesOf ("handled-" ++ source)) := by
  induction fieldRefs generalizing data with
  | nil => cases hmem
  | cons p rest ih =>
    simp only [GoMap.keys, List.map_cons] at hnodup
    have hp : p.1 ∉ GoMap.keys rest := (List.nodup_cons.mp hnodup).1
    have hrest : (GoMap.keys rest).Nodup := (List.nodup_cons.mp hnodup).2
    rcases List.mem_cons.mp hmem with heq | hmem'
    · subst heq
      have h := get?_buildDataFrom_of_not_mem rest
        (data.set field (bytesOf ("handled-" ++ source))) field hp
      simp only [buildDataFrom, List.foldl_cons] at h ⊢
      rw [h, GoMap.get?_set, if_pos rfl]
    · have h := ih (data.set p.1 (bytesOf ("handled-" ++ p.2))) hrest hmem'
      simpa only [buildDataFrom, List.foldl_cons] using h

/-- What Reconcile does for a pending object whose secret is absent, when the
lookup, the create and the update go through. -/
theorem reconcile_pending_absent (c : Cluster) (f : Faults) (now : Nat)
    (req : NamespacedName) (vs : VaultSecret)
    (hwf : c.WellFormed)
    (hget : f.getVaultSecret = none) (hvs : c.vaultSecrets req = some vs)
    (hphase : vs.Status.Phase = "Pending")
    (hgs : f.getSecret = none) (habsent : c.secrets req = none)
    (hcreate : f.createSecret = none) (hupd : f.updateVaultSecret = none) :
    (Reconcile c f now req).err = none ∧
    (Reconcile c f now req).cluster.secrets req = some (buildSecret req vs) ∧
    (Reconcile c f now req).cluster.vaultSecrets req
      = some { vs with Status := syncedStatus vs.Status now } ∧
    (Reconcile c f now req).calls.filter Call.isWrite =
      [.createSecret (buildSecret req vs) true,
       .updateVaultSecret { vs with Status := syncedStatus vs.Status now } true] := by
  have hkey : (⟨vs.Namespace, vs.Name⟩ : NamespacedName) = req := by
    have h := hwf.1 req vs hvs
    cases req
    simp_all
  have hkey' : (buildSecret req vs).key = req := rfl
  simp [Reconcile, clientGetVaultSecret, clientGetSecret, clientCreateSecret,
    clientUpdateVaultSecret, VaultSecret.key, hget, hvs, hphase, hgs, habsent, hcreate, hupd,
    hkey, hkey', IsNotFound, IgnoreNotFound, Call.isWrite]

/-- C1: for a source object in phase "Pending" whose secret is absent, when the
lookup, the create and the update go through, Reconcile returns no error,
creates the secret of the object's namespace and name, whose data has exactly
the keys of the field mappings, each once, and writes the phase "InSync". -/
theorem reconcile_pending_creates_secret (c : Cluster) (f : Faults) (now : Nat)
    (req : NamespacedName) (vs : VaultSecret)
    (hwf : c.WellFormed)
    (hget : f.getVaultSecret = none) (hvs : c.vaultSecrets req = some vs)
    (hphase : vs.Status.Phase = "Pending")
    (hgs : f.getSecret = none) (habsent : c.secrets req = none)
    (hcreate : f.createSecret = none) (hupd : f.updateVaultSecret = none) :
    (Reconcile c f now req).err = none ∧
    (∃ s, (Reconcile c f now req).cluster.secrets req = some s ∧
      Call.createSecret s true ∈ (Reconcile c f now req).calls ∧
      s.Namespace = req.Namespace ∧ s.Name = req.Name ∧
      (∀ k, k ∈ s.Data.keys ↔ k ∈ vs.Spec.Spec.FieldRefs.keys) ∧
      s.Data.keys.Nodup) ∧
    (∃ vs', (Reconcile c f now req).cluster.vaultSecrets req = some vs' ∧
      vs'.Status.Phase = "InSync") := by
  obtain ⟨herr, hsecret, hstatus, hcalls⟩ :=
    reconcile_pending_absent c f now req vs hwf hget hvs hphase hgs habsent hcreate hupd
  refine ⟨herr, ⟨buildSecret req vs, hsecret, ?_, rfl, rfl, ?_, ?_⟩, ⟨_, hstatus, rfl⟩⟩
  · have hmem : Call.createSecret (buildSecret req vs) true ∈
        (Reconcile c f now req).calls.filter Call.isWrite := by
      rw [hcalls]
      exact List.mem_cons_self _ _
    exact (List.mem_filter.mp hmem).1
  · intro k
    have h := mem_keys_buildDataFrom vs.Spec.Spec.FieldRefs [] k
    simpa [buildSecret, buildData, GoMap.keys] using h
  · exact nodup_keys_buildDataFrom vs.Spec.Spec.FieldRefs [] List.nodup_nil

/-- C1 at the scenario object in phase "Pending" with no secret. -/
theorem reconcile_pending_creates_secret_witness :
    (Reconcile (scenarioCluster "Pending" none) Faults.none 7 scenarioReq).err = none ∧
    (∃ s, (Reconcile (scenarioCluster "Pending" none) Faults.none 7 scenarioReq).cluster.secrets
        scenarioReq = some s ∧
      (∀ k, k ∈ s.Data.keys ↔ k ∈ scenarioFieldRefs.keys)) ∧
    (∃ vs', (Reconcile (scenarioCluster "Pending" none) Faults.none 7
        scenarioReq).cluster.vaultSecrets scenarioReq = some vs' ∧
      vs'.Status.Phase = "InSync") :=
  have h := reconcile_pending_creates_secret (scenarioCluster "Pending" none) Faults.none 7
    scenarioReq (scenarioVaultSecret "Pending")
    (scenarioCluster_wellFormed "Pending" none (by simp)) rfl rfl rfl rfl rfl rfl rfl
  ⟨h.1, h.2.1.elim (fun s hs => ⟨s, hs.1, hs.2.2.2.2.1⟩), h.2.2⟩

/-- C3 fails: in the scenario of the specification, where the fetched values are
`svc-user: alice` and `svc-pass: s3cr3t`, the secret Reconcile creates holds
under `username` the bytes of "handled-svc-user", not the fetched bytes of
`svc-user`. -/
theorem scenario_data_differs_from_fetched :
    specMaterialize scenarioFieldRefs scenarioFetched
      = some [("username", bytesOf "alice"), ("password", bytesOf "s3cr3t")] ∧
    ∃ s, (Reconcile (scenarioCluster "Pending" none) Faults.none 7 scenarioReq).cluster.secrets
        scenarioReq = some s ∧
      s.Data.get? "username" = some (bytesOf "handled-svc-user") ∧
      s.Data.get? "username" ≠ scenarioFetched.get? "svc-user" :=
  ⟨by decide, scenarioSecret, by decide, by decide, by decide⟩

/-- C3 amended: for field mappings with distinct destination names, the secret
Reconcile creates for a "Pending" object maps each destination field name to
the bytes of the string "handled-" followed by its source field name; no
fetched value enters the data. -/
theorem reconcile_data_is_handled_source (c : Cluster) (f : Faults) (now : Nat)
    (req : NamespacedName) (vs : VaultSecret)
    (hwf : c.WellFormed)
    (hget : f.getVaultSecret = none) (hvs : c.vaultSecrets req = some vs)
    (hphase : vs.Status.Phase = "Pending")
    (hgs : f.getSecret = none) (habsent : c.secrets req = none)
    (hcreate : f.createSecret = none) (hupd : f.updateVaultSecret = none)
    (hnodup : vs.Spec.Spec.FieldRefs.keys.Nodup) :
    ∃ s, (Reconcile c f now req).cluster.secrets req = some s ∧
      ∀ field source, (field, source) ∈ vs.Spec.Spec.FieldRefs →
        s.Data.get? field = some (bytesOf ("handled-" ++ source)) := by
  obtain ⟨-, hsecret, -, -⟩ :=
    reconcile_pending_absent c f now req vs hwf hget hvs hphase hgs habsent hcreate hupd
  refine ⟨buildSecret req vs, hsecret, ?_⟩
  intro field source hmem
  exact get?_buildDataFrom_of_mem vs.Spec.Spec.FieldRefs [] hnodup field source hmem

/-- C3 amended, at the scenario: `password` holds the bytes of "handled-svc-pass". -/
theorem reconcile_data_is_handled_source_witness :
    ∃ s, (Reconcile (scenarioCluster "Pending" none) Faults.none 7 scenarioReq).cluster.secrets
        scenarioReq = some s ∧
      s.Data.get? "password" = some (bytesOf ("handled-" ++ "svc-pass")) :=
  (reconcile_data_is_handled_source (scenarioCluster "Pending" none) Faults.none 7
    scenarioReq (scenarioVaultSecret "Pending")
    (scenarioCluster_wellFormed "Pending" none (by simp)) rfl rfl rfl rfl rfl rfl rfl
    (by decide)).elim
    (fun s hs => ⟨s, hs.1, hs.2 "password" "svc-pass" (by decide)⟩)

/-- C4 fails: in the scenario, the status Reconcile writes does not consist of
one condition of type "SecretSynchronized" with status "True". -/
theorem scenario_condition_not_secret_synchronized :
    ∃ vs, (Reconcile (scenarioCluster "Pending" none) Faults.none 7
        scenarioReq).cluster.vaultSecrets scenarioReq = some vs ∧
      ¬ ∃ cond, vs.Status.Conditions = [cond] ∧ cond.Type_ = "SecretSynchronized" ∧
        cond.Status = "True" := by
  refine ⟨{ scenarioVaultSecret "Pending" with
      Status := syncedStatus (scenarioVaultSecret "Pending").Status 7 }, by decide, ?_⟩
  rintro ⟨cond, hconds, htype, -⟩
  have h : cond = ⟨"StaleSecret", "False", "SecretSynchronized",
      "The managed Secret is up to date with the Vault source", 7⟩ := by
    have h' : [cond] = [(⟨"StaleSecret", "False", "SecretSynchronized",
        "The managed Secret is up to date with the Vault source", 7⟩ : Condition)] := by
      rw [← hconds]
      decide
    exact List.head_eq_of_cons_eq h'
  rw [h] at htype
  exact absurd htype (by decide)

/-- C4 amended: for a "Pending" source object without conditions whose secret
Reconcile creates, the status written holds the phase "InSync" and exactly one
condition, of type "StaleSecret", status "False" and reason
"SecretSynchronized", with the time of the invocation. -/
theorem reconcile_condition_is_stale_secret_false (c : Cluster) (f : Faults) (now : Nat)
    (req : NamespacedName) (vs : VaultSecret)
    (hwf : c.WellFormed)
    (hget : f.getVaultSecret = none) (hvs : c.vaultSecrets req = some vs)
    (hphase : vs.Status.Phase = "Pending")
    (hgs : f.getSecret = none) (habsent : c.secrets req = none)
    (hcreate : f.createSecret = none) (hupd : f.updateVaultSecret = none)
    (hconds : vs.Status.Conditions = []) :
    ∃ vs', (Reconcile c f now req).cluster.vaultSecrets req = some vs' ∧
      vs'.Status.Phase = "InSync" ∧
      vs'.Status.Conditions =
        [⟨"StaleSecret", "False", "SecretSynchronized",
          "The managed Secret is up to date with the Vault source", now⟩] := by
  obtain ⟨-, -, hstatus, -⟩ :=
    reconcile_pending_absent c f now req vs hwf hget hvs hphase hgs habsent hcreate hupd
  refine ⟨_, hstatus, rfl, ?_⟩
  simp [syncedStatus, SetStatusCondition, FindStatusCondition, hconds]

/-- C4 amended, at the scenario. -/
theorem reconcile_condition_is_stale_secret_false_witness :
    ∃ vs', (Reconcile (scenarioCluster "Pending" none) Faults.none 7
        scenarioReq).cluster.vaultSecrets scenarioReq = some vs' ∧
      vs'.Status.Phase = "InSync" ∧
      vs'.Status.Conditions =
        [⟨"StaleSecret", "False", "SecretSynchronized",
          "The managed Secret is up to date with the Vault source", 7⟩] :=
  reconcile_condition_is_stale_secret_false (scenarioCluster "Pending" none) Faults.none 7
    scenarioReq (scenarioVaultSecret "Pending")
    (scenarioCluster_wellFormed "Pending" none (by simp)) rfl rfl rfl rfl rfl rfl rfl rfl

/-! ## Creation of the secret over a sequence of invocations -/

theorem isNotFound_eq_true (err : ApiError) (h : IsNotFound err = true) : err = .notFound := by
  cases err <;> simp_all [IsNotFound]

/-- A create is issued by Reconcile only for a "Pending" object whose secret the
lookup reported not found, and it is a create of the secret named by the request. -/
theorem reconcile_create_guard (c : Cluster) (f : Faults) (now : Nat) (req : NamespacedName)
    (s : Secret) (ok : Bool) (h : Call.createSecret s ok ∈ (Reconcile c f now req).calls) :
    (∃ vs, clientGetVaultSecret c f req = .ok vs ∧ vs.Status.Phase = "Pending") ∧
    clientGetSecret c f ⟨req.Namespace, req.Name⟩ = .error .notFound ∧
    s.Namespace = req.Namespace ∧ s.Name = req.Name := by
  unfold Reconcile at h
  split at h
  · simp at h
  · next vs hvs =>
    simp only at h
    split_ifs at h with h1 h2 h3
    · split at h <;> simp at h
    · simp at h
    · split at h
      · next err hgs =>
        split_ifs at h with hnf
        · have herr := isNotFound_eq_true err hnf
          subst herr
          refine ⟨⟨vs, hvs, h3⟩, hgs, ?_⟩
          split at h
          · simp at h
            rw [h.1]
            exact ⟨rfl, rfl⟩
          · split at h <;>
            · simp at h
              rw [h.1]
              exact ⟨rfl, rfl⟩
        · simp at h
      · simp at h
    · simp at h

theorem clientCreateSecret_ok (c c' : Cluster) (f : Faults) (s : Secret)
    (h : clientCreateSecret c f s = .ok c') :
    c.secrets s.key = none ∧ c'.secrets = Function.update c.secrets s.key (some s) := by
  unfold clientCreateSecret at h
  split at h
  · cases h
  · split at h
    · cases h
    · next habs =>
      cases h
      exact ⟨habs, rfl⟩

theorem clientUpdateVaultSecret_ok (c c' : Cluster) (f : Faults) (vs : VaultSecret)
    (h : clientUpdateVaultSecret c f vs = .ok c') : c'.secrets = c.secrets := by
  unfold clientUpdateVaultSecret at h
  split at h
  · cases h
  · split at h
    · cases h
      rfl
    · cases h

theorem isCreated_buildSecret (key req : NamespacedName) (vs : VaultSecret) :
    Call.isCreated key (.createSecret (buildSecret req vs) true) = decide (key = req) := by
  cases key
  cases req
  simp only [Call.isCreated, buildSecret, Bool.true_and, NamespacedName.mk.injEq]
  congr 1
  exact propext ⟨fun h => ⟨h.1.symm, h.2.symm⟩, fun h => ⟨h.1.symm, h.2.symm⟩⟩

/-- The secrets after one Reconcile: either untouched with no successful create,
or the secret named by the request, absent before, has been added by the one
successful create. -/
theorem reconcile_secrets_cases (c : Cluster) (f : Faults) (now : Nat) (req : NamespacedName) :
    ((Reconcile c f now req).cluster.secrets = c.secrets ∧
      ∀ key, createdCount key (Reconcile c f now req).calls = 0) ∨
    (c.secrets req = none ∧
      (∃ s, (Reconcile c f now req).cluster.secrets = Function.update c.secrets req (some s)) ∧
      ∀ key, createdCount key (Reconcile c f now req).calls = if key = req then 1 else 0) := by
  unfold Reconcile
  split
  · left
    simp [createdCount, Call.isCreated]
  · next vs hvs =>
    simp only
    split_ifs with h1 h2 h3
    · left
      split
      · simp [createdCount, Call.isCreated]
      · next c' hupd =>
        refine ⟨clientUpdateVaultSecret_ok _ _ _ _ hupd, ?_⟩
        simp [createdCount, Call.isCreated]
    · left
      simp [createdCount, Call.isCreated]
    · split
      · next err hgs =>
        split_ifs with hnf
        · split
          · left
            simp [createdCount, Call.isCreated]
          · next c' hcreate =>
            right
            obtain ⟨habs, hsec⟩ := clientCreateSecret_ok _ _ _ _ hcreate
            have hcount : ∀ (key : NamespacedName) (obj : VaultSecret) (ok : Bool),
                createdCount key ([Call.getVaultSecret req true] ++
                  [Call.getSecret ⟨req.Namespace, req.Name⟩ false] ++
                  [Call.createSecret (buildSecret req vs) true] ++
                  [Call.updateVaultSecret obj ok]) = if key = req then 1 else 0 := by
              intro key obj ok
              simp only [createdCount, List.filter_append, List.filter_cons, List.filter_nil,
                isCreated_buildSecret]
              by_cases hk : key = req <;> simp [hk, Call.isCreated]
            split
            · exact ⟨habs, ⟨_, hsec⟩, fun key => hcount key _ _⟩
            · next c'' hupd =>
              refine ⟨habs, ⟨buildSecret req vs, ?_⟩, fun key => hcount key _ _⟩
              rw [clientUpdateVaultSecret_ok _ _ _ _ hupd]
              exact hsec
        · left
          simp [createdCount, Call.isCreated]
      · left
        simp [createdCount, Call.isCreated]
    · left
      simp [createdCount, Call.isCreated]

theorem createdCount_append (key : NamespacedName) (xs ys : List Call) :
    createdCount key (xs ++ ys) = createdCount key xs + createdCount key ys := by
  simp [createdCount, List.filter_append]

/-- Once the secret is there, a run that never deletes it creates it no more. -/
theorem run_present (key : NamespacedName) (steps : List Step) (c : Cluster)
    (hkeep : ∀ st ∈ steps, st.keepsSecret key) (hpresent : (c.secrets key).isSome) :
    createdCount key (run c steps).2 = 0 := by
  induction steps generalizing c with
  | nil => rfl
  | cons st steps ih =>
    have hrest : ∀ st' ∈ steps, st'.keepsSecret key :=
      fun st' h => hkeep st' (List.mem_cons_of_mem _ h)
    cases st with
    | reconcile f now req =>
      simp only [run, createdCount_append]
      rcases reconcile_secrets_cases c f now req with ⟨hsec, hcount⟩ | ⟨habs, ⟨s, hsec⟩, hcount⟩
      · rw [hcount key, ih _ hrest (by rw [hsec]; exact hpresent)]
      · have hne : key ≠ req := by
          intro heq
          rw [heq, habs] at hpresent
          cases hpresent
        rw [hcount key, if_neg hne, ih _ hrest]
        rw [hsec, Function.update_noteq hne]
        exact hpresent
    | external change =>
      simp only [run]
      exact ih _ hrest (hkeep (.external change) (List.mem_cons_self _ _) c hpresent)

/-- A run that never deletes the secret creates it at most once. -/
theorem run_createdCount_le_one (key : NamespacedName) (steps : List Step) (c : Cluster)
    (hkeep : ∀ st ∈ steps, st.keepsSecret key) :
    createdCount key (run c steps).2 ≤ 1 := by
  induction steps generalizing c with
  | nil => simp [run, createdCount]
  | cons st steps ih =>
    have hrest : ∀ st' ∈ steps, st'.keepsSecret key :=
      fun st' h => hkeep st' (List.mem_cons_of_mem _ h)
    cases st with
    | reconcile f now req =>
      simp only [run, createdCount_append]
      rcases reconcile_secrets_cases c f now req with ⟨-, hcount⟩ | ⟨-, ⟨s, hsec⟩, hcount⟩
      · rw [hcount key, Nat.zero_add]
        exact ih _ hrest
      · rw [hcount key]
        by_cases hk : key = req
        · rw [if_pos hk, run_present key steps _ hrest]
          rw [hsec, hk, Function.update_same]
          rfl
        · rw [if_neg hk, Nat.zero_add]
          exact ih _ hrest
    | external change =>
      simp only [run]
      exact ih _ hrest

/-- C10: a create is issued by Reconcile only when the source object is in phase
"Pending" and the lookup of the secret of the request's namespace and name
reported not found; and over any sequence of Reconcile invocations and of changes
by other actors that do not delete the secret, started from any cluster, the
secret is created at most once. -/
theorem secret_created_at_most_once (c : Cluster) (steps : List Step) (key : NamespacedName)
    (hkeep : ∀ st ∈ steps, st.keepsSecret key) :
    (∀ f now req s ok, Call.createSecret s ok ∈ (Reconcile c f now req).calls →
      (∃ vs, clientGetVaultSecret c f req = .ok vs ∧ vs.Status.Phase = "Pending") ∧
      clientGetSecret c f ⟨req.Namespace, req.Name⟩ = .error .notFound ∧
      s.Namespace = req.Namespace ∧ s.Name = req.Name) ∧
    createdCount key (run c steps).2 ≤ 1 :=
  ⟨fun f now req s ok h => reconcile_create_guard c f now req s ok h,
   run_createdCount_le_one key steps c hkeep⟩

theorem scenarioSteps_keepsSecret : ∀ st ∈ scenarioSteps, st.keepsSecret scenarioReq := by
  intro st hst
  simp only [scenarioSteps, List.mem_cons, List.mem_singleton, List.not_mem_nil, or_false] at hst
  rcases hst with rfl | rfl | rfl | rfl | rfl | rfl | rfl
  · trivial
  · trivial
  · trivial
  · intro c h
    simp only [overwriteUsername, Option.isSome_map']
    exact h
  · intro c h
    exact h
  · trivial
  · trivial

/-- C10 at the life of the scenario object: the secret is created once, in the
second invocation, and not again after the phase went back to "Pending". -/
theorem secret_created_at_most_once_witness :
    createdCount scenarioReq (run (scenarioCluster "" none) scenarioSteps).2 = 1 ∧
    createdCount scenarioReq (run (scenarioCluster "" none) scenarioSteps).2 ≤ 1 :=
  ⟨by decide,
   (secret_created_at_most_once (scenarioCluster "" none) scenarioSteps scenarioReq
      scenarioSteps_keepsSecret).2⟩

end SecretsBroker
